import Mathlib

/-
Verification development for the vps-ibr repository (inventory, backup and
restore of remote servers over SSH).

The Python modules under src/vps_ibr are shallowly embedded:
  - local on-disk snapshot trees are finite `FTree` values;
  - remote interaction is an oracle `Env` giving each issued command's
    captured output and each tree-sync's success flag;
  - every externally visible action of the orchestrators is recorded in an
    `Effect` trace, and fallible Python control flow is `Except PyErr`;
  - strings are Lean `String`s, with small executable helpers standing in for
    the Python `str` methods used by the source (split, strip, dirname).
-/

namespace VpsIbr

/-- Python truthiness of an `Optional[str]`: `None` and `""` are falsy. -/
def truthy : Option String → Bool
  | none => false
  | some s => !(s == "")

/-- Split a character list on a separator character; empty groups are kept,
as in Python's `str.split`. -/
def splitCharOn (sep : Char) (l : List Char) : List (List Char) :=
  l.foldr
    (fun c acc =>
      if c = sep then [] :: acc
      else
        match acc with
        | [] => [[c]]
        | g :: gs => (c :: g) :: gs)
    [[]]

/-- Characters Python's `str.strip()` and the `\s` regex class treat as
whitespace (the ASCII ones, which are the only ones the repository meets). -/
def pyWs (c : Char) : Bool :=
  c == ' ' || c == '\t' || c == '\n' || c == '\x0b' || c == '\x0c' || c == '\r'

/-- Python `str.strip()` on a character list. -/
def pyStripL (l : List Char) : List Char :=
  ((l.dropWhile pyWs).reverse.dropWhile pyWs).reverse

/-- Python `str.strip()`. -/
def pyStrip (s : String) : String :=
  String.mk (pyStripL s.toList)

/-- The components of a POSIX path string, dropping empty components: the
effect of `path.lstrip('/')` followed by `os.path.join`, with trailing
slashes (which the sources add for rsync) ignored. -/
def splitPath (s : String) : List String :=
  ((splitCharOn '/' s.toList).filter (· ≠ [])).map (fun l => String.mk l)

/-- Python `str.splitlines()` modelled as splitting on a newline; a trailing
newline's empty last group is harmless to every caller, which strips and
then length-checks each line. -/
def splitLines (s : String) : List String :=
  (splitCharOn '\n' s.toList).map (fun l => String.mk l)

/-- Python `os.path.dirname`: everything before the last slash. -/
def pyDirname (s : String) : String :=
  String.intercalate "/" (((splitCharOn '/' s.toList).map (fun l => String.mk l)).dropLast)

/-- Python `os.path.basename`: everything after the last slash. -/
def pyBasename (s : String) : String :=
  String.mk ((splitCharOn '/' s.toList).getLast?.getD [])

/-- A local path relative to the directory a run works in, as components. -/
abbrev FPath := List String

/-- A finite on-disk tree: files with contents, directories with named
children in directory-listing order. -/
inductive FTree where
  | file (content : String)
  | dir (children : List (String × FTree))
  deriving Repr

/-- Whether a tree node is a directory (`os.path.isdir`). -/
def FTree.isDir : FTree → Bool
  | .file _ => false
  | .dir _ => true

/-- Look a path up in a tree (`os.path.exists` is `isSome` of this). -/
def FTree.find? : FTree → FPath → Option FTree
  | t, [] => some t
  | .file _, _ :: _ => none
  | .dir cs, n :: rest =>
    match cs.lookup n with
    | some t => t.find? rest
    | none => none

/-- The children of the directory at a path, or `none` when the path is
missing (or names a file, which `os.listdir` would reject). -/
def FTree.childrenAt (t : FTree) (p : FPath) : Option (List (String × FTree)) :=
  match t.find? p with
  | some (.dir cs) => some cs
  | _ => none

/-! ## Remote interaction model

`src/vps_ibr/utils/ssh.py` wraps `ssh`/`scp`/`rsync` subprocesses.
`run_ssh_command` returns the remote command's trimmed stdout or `None` on
any failure; `rsync_push`/`rsync_pull` mirror a directory tree and return a
success flag.  The environment oracle fixes, per issued command or per sync
destination, what the transport would report; the orchestrators are
deterministic functions of it. -/

/-- Everything the remote side and the transport decide. -/
structure Env where
  ssh : String → Option String
  pushOk : VpsIbr.FPath → Bool
  pullOk : VpsIbr.FPath → Bool

/-- One externally visible action of an orchestrator, in program order:
remote commands, tree syncs in either direction, and local file activity
(log appends, command-output capture, directory creation, scratch files). -/
inductive Effect where
  | sshCmd (cmd : String)
  | push (dst : VpsIbr.FPath) (content : VpsIbr.FTree) (ok : Bool)
  | pullTo (dst : VpsIbr.FPath) (src : String) (ok : Bool)
  | writeLocal (p : VpsIbr.FPath)
  | removeLocal (p : VpsIbr.FPath)
  | ensureDir (p : VpsIbr.FPath)
  | scpPush (src : VpsIbr.FPath) (dst : String)
  deriving Repr

/-- A Python exception escaping the embedded code. -/
inductive PyErr where
  | nameError (name : String)
  deriving Repr, DecidableEq

/-- The remote filesystem after a trace: a successful `push dst content` is a
mirror sync, so below `dst` exactly the pushed tree's files exist.  Remote
commands are recorded but their filesystem consequences are not interpreted
(in the flows verified here they are probes, restarts, `mkdir -p` and
package installs, none of which the verified conclusions read through). -/
def applyEffect (fs : VpsIbr.FPath → Option String) : Effect → (VpsIbr.FPath → Option String)
  | .push dst content true => fun q =>
      if dst.isPrefixOf q then
        match content.find? (q.drop dst.length) with
        | some (.file c) => some c
        | _ => none
      else fs q
  | _ => fs

/-- Fold a whole trace over a remote filesystem. -/
def applyTrace (fs : VpsIbr.FPath → Option String) : List Effect → (VpsIbr.FPath → Option String)
  | [] => fs
  | e :: rest => applyTrace (applyEffect fs e) rest

/-- Effects that leave the remote filesystem as `applyTrace` interprets it
unchanged: everything but a push. -/
def remoteSilent : Effect → Bool
  | .push _ _ _ => false
  | _ => true

end VpsIbr

namespace VpsIbr.Restore

open VpsIbr

/-! ## Embedding of src/vps_ibr/restore/manager.py -/

/-- The names bound at module level by restore/manager.py's import statements
(lines 5-13): the five imported modules and the four names imported from
vps_ibr.utils.  `subprocess` is not among them, so evaluating `subprocess`
inside `restore_service` raises `NameError`. -/
def restore_manager_imports : List String :=
  ["os", "json", "yaml", "shutil", "datetime",
   "Dict", "Any", "List", "Optional", "Tuple",
   "run_ssh_command", "rsync_push", "ensure_dir", "load_json"]

/-- A restore recipe: `SERVICE_RESTORE_HANDLERS` entry.  Optional fields model
dictionary-key presence checked with `in`. -/
structure RestoreHandler where
  paths : Option (List String) := none
  pre_restore_cmd : Option String := none
  post_restore_cmd : Option String := none
  restart_cmd : Option String := none
  files : Option (List (String × String)) := none

/-- The nginx restore recipe (restore/manager.py 17-20): two paths and a
restart command, no pre/post command and no standalone files. -/
def nginxRestoreHandler : RestoreHandler :=
  { paths := some ["/etc/nginx/", "/var/www/"],
    restart_cmd := some "systemctl restart nginx" }

/-- The apache2 restore recipe (lines 21-24). -/
def apache2RestoreHandler : RestoreHandler :=
  { paths := some ["/etc/apache2/", "/var/www/"],
    restart_cmd := some "systemctl restart apache2" }

/-- The mysql restore recipe (lines 25-32): stop, place the dump, reload. -/
def mysqlRestoreHandler : RestoreHandler :=
  { paths := some ["/etc/mysql/"],
    pre_restore_cmd := some "systemctl stop mysql",
    post_restore_cmd := some "mysql < /tmp/all_databases.sql && systemctl start mysql",
    files := some [("files/all_databases.sql", "/tmp/all_databases.sql")] }

/-- The postgresql restore recipe (lines 33-40). -/
def postgresqlRestoreHandler : RestoreHandler :=
  { paths := some ["/etc/postgresql/"],
    pre_restore_cmd := some "systemctl stop postgresql",
    post_restore_cmd :=
      some "su - postgres -c \x27psql < /tmp/pg_dumpall.sql\x27 && systemctl start postgresql",
    files := some [("files/pg_dumpall.sql", "/tmp/pg_dumpall.sql")] }

/-- The docker restore recipe (lines 41-44). -/
def dockerRestoreHandler : RestoreHandler :=
  { paths := some ["/etc/docker/"],
    post_restore_cmd := some "systemctl restart docker" }

/-- The static service-to-restore-recipe table (restore/manager.py 16-45).
Every entry defines `paths`; the `files` entries are (src, dst) pairs. -/
def SERVICE_RESTORE_HANDLERS : List (String × RestoreHandler) :=
  [("nginx", nginxRestoreHandler),
   ("apache2", apache2RestoreHandler),
   ("mysql", mysqlRestoreHandler),
   ("postgresql", postgresqlRestoreHandler),
   ("docker", dockerRestoreHandler)]

/-- The connectivity probe command (restore/manager.py line 73). -/
def probe_cmd : String := "echo \x27SSH connection successful\x27"

/-- A `log_message` call: one append to the restore log inside the backup
directory (timestamps are not modelled). -/
def logW : Effect := Effect.writeLocal ["restore_log.txt"]

/-- `restore_system_configs` (restore/manager.py 161-198): push the backed-up
`/etc` tree and cron spool when present; with no `system` subtree, log a
skip and report failure (a result `restore_server` ignores). -/
def restore_system_configs (env : Env) (bt : FTree) : List Effect × Bool :=
  match bt.find? ["system"] with
  | none => ([logW], false)
  | some _ =>
    let tEtc :=
      match bt.find? ["system", "etc"] with
      | some sub => [logW, Effect.push ["etc"] sub (env.pushOk ["etc"])]
      | none => []
    let tCron :=
      match bt.find? ["system", "var", "spool", "cron"] with
      | some sub => [logW, Effect.push ["var", "spool", "cron"] sub (env.pushOk ["var", "spool", "cron"])]
      | none => []
    ([logW] ++ tEtc ++ tCron, true)

/-- The `files`-directory restoration inside `restore_service` (lines
231-249): with a recipe the configured paths found under `files/` are
pushed to their absolute locations; without one each top-level directory
under `files/` is pushed to the root path of its own name.  The existence
check is on the trailing-slash join of the recipe path, which in a real
backup tree names a directory; a regular file squatting on a recipe path's
name is not modelled (Python's `exists` would reject the trailing slash). -/
def restore_paths_step (env : Env) (sdir : FTree) (handler : Option RestoreHandler) : List Effect :=
  match sdir.find? ["files"] with
  | none => []
  | some ftree =>
    match handler.bind (fun h => h.paths) with
    | some ps =>
      ps.flatMap (fun p =>
        match sdir.find? ("files" :: splitPath p) with
        | some sub => [logW, Effect.push (splitPath p) sub (env.pushOk (splitPath p))]
        | none => [])
    | none =>
      match ftree with
      | .dir cs =>
        cs.flatMap (fun e =>
          if e.2.isDir then [logW, Effect.push [e.1] e.2 (env.pushOk [e.1])] else [])
      | .file _ => []

/-- The recipe-specific standalone file copies inside `restore_service`
(lines 251-283).  For each (src, dst) pair whose source exists: log, create
the destination directory remotely, write the local scratch copy, then the
source evaluates the unbound name `subprocess` — the guard on the module's
imports makes the `NameError` explicit; the never-reached success path
records the scp, the remote move and the scratch cleanup. -/
def copy_files_step (env : Env) (sdir : FTree) : List (String × String) → List Effect × Except PyErr Unit
  | [] => ([], .ok ())
  | (src, dst) :: rest =>
    if (sdir.find? (splitPath src)).isSome then
      let es := [logW, Effect.sshCmd ("mkdir -p " ++ pyDirname dst),
                 Effect.writeLocal ["tmp", "temp_file"]]
      if restore_manager_imports.contains "subprocess" then
        let es2 := es ++ [Effect.scpPush ["tmp", "temp_file"] ("/tmp/" ++ pyBasename dst),
                          Effect.sshCmd ("mv /tmp/" ++ pyBasename dst ++ " " ++ dst),
                          Effect.removeLocal ["tmp", "temp_file"]]
        let (es3, r) := copy_files_step env sdir rest
        (es2 ++ es3, r)
      else (es, .error (.nameError "subprocess"))
    else copy_files_step env sdir rest

/-- The installed-check command of `restore_service` line 289. -/
def checkCmd (service : String) : String :=
  "which " ++ service ++ " >/dev/null 2>&1 || echo \x27not_installed\x27"

/-- The apt-detection command of `restore_service` line 294. -/
def aptCheckCmd : String := "which apt >/dev/null 2>&1"

/-- The yum-detection command of `restore_service` line 295. -/
def yumCheckCmd : String := "which yum >/dev/null 2>&1"

/-- The package-installation step of `restore_service` (lines 285-304).  The
detection commands suppress stdout, so `run_ssh_command`'s output decides the
branches exactly as Python truthiness does. -/
def install_step (env : Env) (service : String) : List Effect :=
  if ["nginx", "apache2", "mysql", "postgresql", "docker"].contains service then
    if env.ssh (checkCmd service) == some "not_installed" then
      if truthy (env.ssh aptCheckCmd) then
        [Effect.sshCmd (checkCmd service), Effect.sshCmd aptCheckCmd, logW,
         Effect.sshCmd ("apt update && apt install -y " ++ service)]
      else if truthy (env.ssh yumCheckCmd) then
        [Effect.sshCmd (checkCmd service), Effect.sshCmd aptCheckCmd, Effect.sshCmd yumCheckCmd,
         logW, Effect.sshCmd ("yum install -y " ++ service)]
      else [Effect.sshCmd (checkCmd service), Effect.sshCmd aptCheckCmd, Effect.sshCmd yumCheckCmd]
    else [Effect.sshCmd (checkCmd service)]
  else []

/-- The closing step of `restore_service` (lines 306-314): the post-restore
command when the recipe has one, else the restart command when it has one. -/
def post_step (service : String) : List Effect :=
  match SERVICE_RESTORE_HANDLERS.lookup service with
  | some h =>
    match h.post_restore_cmd with
    | some c => [logW, Effect.sshCmd c]
    | none =>
      match h.restart_cmd with
      | some c => [logW, Effect.sshCmd c]
      | none => []
  | none => []

/-- `restore_service` (restore/manager.py 200-316): log, optional pre-restore
command, path pushes, standalone file copies (where the unbound `subprocess`
escapes), package installation, then post-restore or restart command.  An
escaping exception truncates the trace and replaces the `True` result. -/
def restore_service (env : Env) (service : String) (sdir : FTree) : List Effect × Except PyErr Bool :=
  let handler := SERVICE_RESTORE_HANDLERS.lookup service
  let tPre :=
    match handler.bind (fun h => h.pre_restore_cmd) with
    | some c => [logW, Effect.sshCmd c]
    | none => []
  let t1 := [logW] ++ tPre ++ restore_paths_step env sdir handler
  match copy_files_step env sdir ((handler.bind (fun h => h.files)).getD []) with
  | (t2, .error e) => (t1 ++ t2, .error e)
  | (t2, .ok _) =>
    (t1 ++ t2 ++ install_step env service ++ post_step service, .ok true)

/-- The service loop of `restore_server` (lines 99-107): each subdirectory of
`services/` is restored in listing order; an escaping exception aborts the
loop and propagates. -/
def services_loop (env : Env) : List (String × FTree) → List Effect × Except PyErr Unit
  | [] => ([], .ok ())
  | (name, t) :: rest =>
    if t.isDir then
      match restore_service env name t with
      | (es, .error e) => (es, .error e)
      | (es, .ok _) =>
        let (es2, r) := services_loop env rest
        (es ++ es2, r)
    else services_loop env rest

/-- The home-directory loop of `restore_server` (lines 109-129): per user
subdirectory, ensure the account exists, query its home directory, and push
the backed-up home tree when the query returns a truthy path. -/
def homes_loop (env : Env) : List (String × FTree) → List Effect
  | [] => []
  | (user, t) :: rest =>
    if t.isDir then
      let homeCmd := "getent passwd " ++ user ++ " | cut -d: -f6"
      let es := [Effect.sshCmd ("id " ++ user ++ " >/dev/null 2>&1 || useradd -m " ++ user),
                 Effect.sshCmd homeCmd]
      let es2 :=
        if truthy (env.ssh homeCmd) then
          let home := splitPath ((env.ssh homeCmd).getD "")
          [logW, Effect.push home t (env.pushOk home)]
        else []
      es ++ es2 ++ homes_loop env rest
    else homes_loop env rest

/-- What `restore_server` sees of the world: the backup directory's tree
(`none` when the path is missing or not a directory), whether the resolved
SSH key file exists, and the remote environment. -/
structure World where
  backupDir : Option FTree
  sshKeyExists : Bool
  env : Env

/-- `restore_server` (restore/manager.py 47-146): the three precondition
checks, then the restore log, system configs, services, homes and the
closing log write.  `backup_summary.json` is only read, so it leaves no
trace.  A missing `services/` or `homes/` directory skips its loop. -/
def restore_server (w : World) : List Effect × Except PyErr Bool :=
  match w.backupDir with
  | none => ([], .ok false)
  | some bt =>
    if !w.sshKeyExists then ([], .ok false)
    else
      let t0 := [Effect.sshCmd probe_cmd]
      if !truthy (w.env.ssh probe_cmd) then (t0, .ok false)
      else
        let t1 := t0 ++ [logW]
        let tSys := (restore_system_configs w.env bt).1
        let svcEntries := (bt.childrenAt ["services"]).getD []
        match services_loop w.env svcEntries with
        | (tSvc, .error e) => (t1 ++ tSys ++ tSvc, .error e)
        | (tSvc, .ok _) =>
          let tHomes := homes_loop w.env ((bt.childrenAt ["homes"]).getD [])
          (t1 ++ tSys ++ tSvc ++ tHomes ++ [logW], .ok true)

end VpsIbr.Restore

namespace VpsIbr.Parser

open VpsIbr

/-! ## Embedding of src/vps_ibr/inventory/parser.py

The pattern table uses a small regular-expression fragment: literals,
character classes, `?`, `+`, `.*`, alternation and flat (unnested) capturing
groups.  A backtracking matcher returns candidate matches in Python's
preference order (greedy quantifiers longest-first, alternatives
left-first), so the head of the candidate list at the leftmost matching
position is exactly what `re.search` returns. -/

/-- The regex fragment the pattern tables use.  Group numbers are written
explicitly and follow the source regexes' left-to-right numbering. -/
inductive RE where
  | cls (p : Char → Bool)
  | seq (a b : RE)
  | grp (n : Nat) (a : RE)
  | opt (a : RE)
  | plus (a : RE)
  | star (a : RE)
  | alt (a b : RE)

/-- Captures: group number paired with the captured characters; the most
recent capture of a group shadows older ones. -/
abbrev Caps := List (Nat × List Char)

/-- All candidate matches of a regex at position `i` of `s`, as
(end-position, captures) in backtracking preference order: a quantifier
prefers more repetitions, an alternation its left branch, `?` matching over
skipping.  `fuel` bounds recursion depth; every caller passes enough for the
pattern and input at hand. -/
def reRun (fuel : Nat) (re : RE) (s : List Char) (i : Nat) (caps : Caps) : List (Nat × Caps) :=
  match fuel with
  | 0 => []
  | fuel + 1 =>
    match re with
    | .cls p =>
      match s.get? i with
      | some c => if p c then [(i + 1, caps)] else []
      | none => []
    | .seq a b => (reRun fuel a s i caps).flatMap (fun jc => reRun fuel b s jc.1 jc.2)
    | .grp n a => (reRun fuel a s i caps).map (fun jc => (jc.1, (n, (s.drop i).take (jc.1 - i)) :: jc.2))
    | .opt a => reRun fuel a s i caps ++ [(i, caps)]
    | .alt a b => reRun fuel a s i caps ++ reRun fuel b s i caps
    | .plus a =>
      (reRun fuel a s i caps).flatMap (fun jc =>
        (if i < jc.1 then reRun fuel (.plus a) s jc.1 jc.2 else []) ++ [jc])
    | .star a =>
      ((reRun fuel a s i caps).flatMap (fun jc =>
        (if i < jc.1 then reRun fuel (.star a) s jc.1 jc.2 else []) ++ [jc])) ++ [(i, caps)]

/-- `re.search`: the first position whose candidate list is non-empty wins,
and its preferred candidate's captures are the match's captures. -/
def research (re : RE) (s : List Char) : Option Caps :=
  (List.range (s.length + 1)).findSome? (fun i =>
    ((reRun (s.length + 200) re s i []).head?).map (fun jc => jc.2))

/-- `match.lastindex or 1` for the flat patterns of this module: with flat
groups, the group that completes last is the highest-numbered one captured;
`1` when no group participated (no pattern of the table matches without
capturing). -/
def lastIndex (caps : Caps) : Nat :=
  if caps.isEmpty then 1 else caps.foldl (fun m kc => max m kc.1) 0

/-- `match.group(n)`: empty for a group that did not participate (no caller
reaches that case with the table's patterns). -/
def groupGet (caps : Caps) (n : Nat) : List Char :=
  (caps.lookup n).getD []

/-- Sequence a list of regexes. -/
def rcat : List RE → RE
  | [] => RE.opt (RE.cls (fun _ => false))
  | [r] => r
  | r :: rest => RE.seq r (rcat rest)

/-- A literal string as a regex. -/
def rlit (s : String) : RE :=
  rcat (s.toList.map (fun c => RE.cls (fun d => d == c)))

/-- Left-nested alternation of literal words, mirroring `(w1|w2|...)`. -/
def ralts : List String → RE
  | [] => RE.cls (fun _ => false)
  | [w] => rlit w
  | w :: rest => RE.alt (rlit w) (ralts rest)

/-- The class `[a-zA-Z0-9\-\.]`. -/
def pkgChar (c : Char) : Bool := c.isAlphanum || c == '-' || c == '.'

/-- The class `[a-zA-Z0-9\-\.@/]` of the npm pattern. -/
def npmChar (c : Char) : Bool := pkgChar c || c == '@' || c == '/'

/-- The class `[a-zA-Z0-9\-\./]` of the docker image patterns. -/
def dockerChar (c : Char) : Bool := pkgChar c || c == '/'

/-- The class `[a-zA-Z0-9\-\_]` of the user patterns. -/
def userChar (c : Char) : Bool := c.isAlphanum || c == '-' || c == '_'

/-- Python's `.` (anything but a newline). -/
def dotChar (c : Char) : Bool := !(c == '\n')

/-- Embedding of `apt(-get)?\s+install\s+([a-zA-Z0-9\-\.]+)`. -/
def aptPat1 : RE :=
  rcat [rlit "apt", .opt (.grp 1 (rlit "-get")), .plus (.cls pyWs),
        rlit "install", .plus (.cls pyWs), .grp 2 (.plus (.cls pkgChar))]

/-- Embedding of `apt(-get)?\s+install\s+(-y\s+)?([a-zA-Z0-9\-\.]+)`. -/
def aptPat2 : RE :=
  rcat [rlit "apt", .opt (.grp 1 (rlit "-get")), .plus (.cls pyWs),
        rlit "install", .plus (.cls pyWs),
        .opt (.grp 2 (rcat [rlit "-y", .plus (.cls pyWs)])),
        .grp 3 (.plus (.cls pkgChar))]

/-- Embedding of `yum\s+install\s+([a-zA-Z0-9\-\.]+)`. -/
def yumPat1 : RE :=
  rcat [rlit "yum", .plus (.cls pyWs), rlit "install", .plus (.cls pyWs),
        .grp 1 (.plus (.cls pkgChar))]

/-- Embedding of `yum\s+install\s+(-y\s+)?([a-zA-Z0-9\-\.]+)`. -/
def yumPat2 : RE :=
  rcat [rlit "yum", .plus (.cls pyWs), rlit "install", .plus (.cls pyWs),
        .opt (.grp 1 (rcat [rlit "-y", .plus (.cls pyWs)])),
        .grp 2 (.plus (.cls pkgChar))]

/-- Embedding of `dnf\s+install\s+([a-zA-Z0-9\-\.]+)`. -/
def dnfPat1 : RE :=
  rcat [rlit "dnf", .plus (.cls pyWs), rlit "install", .plus (.cls pyWs),
        .grp 1 (.plus (.cls pkgChar))]

/-- Embedding of `dnf\s+install\s+(-y\s+)?([a-zA-Z0-9\-\.]+)`. -/
def dnfPat2 : RE :=
  rcat [rlit "dnf", .plus (.cls pyWs), rlit "install", .plus (.cls pyWs),
        .opt (.grp 1 (rcat [rlit "-y", .plus (.cls pyWs)])),
        .grp 2 (.plus (.cls pkgChar))]

/-- Embedding of `pip\s+install\s+([a-zA-Z0-9\-\.]+)`. -/
def pipPat1 : RE :=
  rcat [rlit "pip", .plus (.cls pyWs), rlit "install", .plus (.cls pyWs),
        .grp 1 (.plus (.cls pkgChar))]

/-- Embedding of `pip3\s+install\s+([a-zA-Z0-9\-\.]+)`. -/
def pipPat2 : RE :=
  rcat [rlit "pip3", .plus (.cls pyWs), rlit "install", .plus (.cls pyWs),
        .grp 1 (.plus (.cls pkgChar))]

/-- Embedding of `npm\s+install\s+(-g\s+)?([a-zA-Z0-9\-\.@/]+)`. -/
def npmPat1 : RE :=
  rcat [rlit "npm", .plus (.cls pyWs), rlit "install", .plus (.cls pyWs),
        .opt (.grp 1 (rcat [rlit "-g", .plus (.cls pyWs)])),
        .grp 2 (.plus (.cls npmChar))]

/-- Embedding of `docker\s+run\s+.*\s+([a-zA-Z0-9\-\./]+:[a-zA-Z0-9\-\.]+)`. -/
def dockerPat1 : RE :=
  rcat [rlit "docker", .plus (.cls pyWs), rlit "run", .plus (.cls pyWs),
        .star (.cls dotChar), .plus (.cls pyWs),
        .grp 1 (rcat [.plus (.cls dockerChar), .cls (fun c => c == ':'), .plus (.cls pkgChar)])]

/-- Embedding of `docker\s+pull\s+([a-zA-Z0-9\-\./]+:[a-zA-Z0-9\-\.]+)`. -/
def dockerPat2 : RE :=
  rcat [rlit "docker", .plus (.cls pyWs), rlit "pull", .plus (.cls pyWs),
        .grp 1 (rcat [.plus (.cls dockerChar), .cls (fun c => c == ':'), .plus (.cls pkgChar)])]

/-- The apt entry of `PACKAGE_PATTERNS` (parser.py 11-14). -/
def aptPatterns : List RE := [aptPat1, aptPat2]

/-- The yum entry of `PACKAGE_PATTERNS`. -/
def yumPatterns : List RE := [yumPat1, yumPat2]

/-- The dnf entry of `PACKAGE_PATTERNS`. -/
def dnfPatterns : List RE := [dnfPat1, dnfPat2]

/-- The pip entry of `PACKAGE_PATTERNS`. -/
def pipPatterns : List RE := [pipPat1, pipPat2]

/-- The npm entry of `PACKAGE_PATTERNS`. -/
def npmPatterns : List RE := [npmPat1]

/-- The docker entry of `PACKAGE_PATTERNS`. -/
def dockerPatterns : List RE := [dockerPat1, dockerPat2]

/-- `PACKAGE_PATTERNS` (parser.py 10-34), in dictionary insertion order. -/
def PACKAGE_PATTERNS : List (String × List RE) :=
  [("apt", aptPatterns), ("yum", yumPatterns), ("dnf", dnfPatterns),
   ("pip", pipPatterns), ("npm", npmPatterns), ("docker", dockerPatterns)]

/-- Embedding of `systemctl\s+(start|enable|restart|status)\s+([a-zA-Z0-9\-\.]+)`. -/
def svcPat1 : RE :=
  rcat [rlit "systemctl", .plus (.cls pyWs),
        .grp 1 (ralts ["start", "enable", "restart", "status"]), .plus (.cls pyWs),
        .grp 2 (.plus (.cls pkgChar))]

/-- Embedding of `service\s+([a-zA-Z0-9\-\.]+)\s+(start|restart|stop|status)`. -/
def svcPat2 : RE :=
  rcat [rlit "service", .plus (.cls pyWs), .grp 1 (.plus (.cls pkgChar)),
        .plus (.cls pyWs), .grp 2 (ralts ["start", "restart", "stop", "status"])]

/-- `SERVICE_PATTERNS` (parser.py 37-40). -/
def SERVICE_PATTERNS : List RE := [svcPat1, svcPat2]

/-- Embedding of `useradd\s+(-m\s+)?([a-zA-Z0-9\-\_]+)`. -/
def userPat1 : RE :=
  rcat [rlit "useradd", .plus (.cls pyWs),
        .opt (.grp 1 (rcat [rlit "-m", .plus (.cls pyWs)])),
        .grp 2 (.plus (.cls userChar))]

/-- Embedding of `adduser\s+([a-zA-Z0-9\-\_]+)`. -/
def userPat2 : RE :=
  rcat [rlit "adduser", .plus (.cls pyWs), .grp 1 (.plus (.cls userChar))]

/-- `USER_PATTERNS` (parser.py 43-46). -/
def USER_PATTERNS : List RE := [userPat1, userPat2]

/-- Code-point lexicographic comparison of character lists, the order
Python's `sorted` uses on `str`. -/
def lexLe : List Char → List Char → Bool
  | [], _ => true
  | _ :: _, [] => false
  | a :: as, b :: bs =>
    if a.toNat < b.toNat then true
    else if b.toNat < a.toNat then false
    else lexLe as bs

/-- The string order induced by `lexLe`. -/
def pyLe (a b : String) : Prop := lexLe a.toList b.toList = true

instance : DecidableRel pyLe := fun a b =>
  inferInstanceAs (Decidable (lexLe a.toList b.toList = true))

theorem lexLe_total : ∀ a b : List Char, lexLe a b = true ∨ lexLe b a = true
  | [], _ => Or.inl rfl
  | _ :: _, [] => Or.inr rfl
  | a :: as, b :: bs => by
    rcases Nat.lt_trichotomy a.toNat b.toNat with h | h | h
    · left; simp [lexLe, h]
    · have h1 : ¬ a.toNat < b.toNat := by omega
      have h2 : ¬ b.toNat < a.toNat := by omega
      simpa [lexLe, h1, h2] using lexLe_total as bs
    · right; simp [lexLe, h, Nat.lt_asymm h]

theorem lexLe_trans : ∀ a b c : List Char,
    lexLe a b = true → lexLe b c = true → lexLe a c = true
  | [], _, _, _, _ => rfl
  | _ :: _, [], _, hab, _ => by simp [lexLe] at hab
  | _ :: _, _ :: _, [], _, hbc => by simp [lexLe] at hbc
  | a :: as, b :: bs, c :: cs, hab, hbc => by
    rcases Nat.lt_trichotomy a.toNat b.toNat with h₁ | h₁ | h₁
    · rcases Nat.lt_trichotomy b.toNat c.toNat with h₂ | h₂ | h₂
      · simp [lexLe, show a.toNat < c.toNat by omega]
      · simp [lexLe, show a.toNat < c.toNat by omega]
      · exfalso; simp [lexLe, h₂, Nat.lt_asymm h₂] at hbc
    · rcases Nat.lt_trichotomy b.toNat c.toNat with h₂ | h₂ | h₂
      · simp [lexLe, show a.toNat < c.toNat by omega]
      · have hn1 : ¬ a.toNat < b.toNat := by omega
        have hn2 : ¬ b.toNat < a.toNat := by omega
        have hn3 : ¬ b.toNat < c.toNat := by omega
        have hn4 : ¬ c.toNat < b.toNat := by omega
        simp only [lexLe, hn1, hn2, if_false] at hab
        simp only [lexLe, hn3, hn4, if_false] at hbc
        simpa [lexLe, show ¬ a.toNat < c.toNat by omega,
               show ¬ c.toNat < a.toNat by omega] using
          lexLe_trans as bs cs hab hbc
      · exfalso; simp [lexLe, h₂, Nat.lt_asymm h₂] at hbc
    · exfalso; simp [lexLe, h₁, Nat.lt_asymm h₁] at hab

instance : IsTotal String pyLe := ⟨fun a b => lexLe_total a.toList b.toList⟩

instance : IsTrans String pyLe :=
  ⟨fun a b c hab hbc => lexLe_trans a.toList b.toList c.toList hab hbc⟩

/-- Python's `sorted(list(some_set))`: duplicates dropped, then sorted by
code-point order. -/
def pySortedSet (l : List String) : List String :=
  l.dedup.insertionSort pyLe

/-- `find_matches` (parser.py 87-110): strip each line, try every pattern,
take the last capturing group of a match as the item, strip it, drop empty
items, deduplicate and sort. -/
def find_matches (lines : List String) (patterns : List RE) : List String :=
  pySortedSet (lines.flatMap (fun line =>
    patterns.filterMap (fun pat =>
      match research pat (pyStripL line.toList) with
      | some caps =>
        let item := pyStripL (groupGet caps (lastIndex caps))
        if item ≠ [] then some (String.mk item) else none
      | none => none)))

/-- The parsed artifact of one history file: packages per manager (dict in
insertion order), service names, created users. -/
structure HistoryAnalysis where
  packages : List (String × List String)
  services : List String
  users : List String
  deriving Repr, DecidableEq

/-- The all-empty analysis `parse_bash_history` returns for missing or
zero-length input (parser.py 58-63): note the `packages` dict is empty, it
does not carry the six manager keys. -/
def emptyAnalysis : HistoryAnalysis :=
  { packages := [], services := [], users := [] }

/-- `parse_bash_history` (parser.py 48-85) over the history file's state:
`none` a missing file, otherwise its contents (a zero-length file has
contents `""`). -/
def parse_bash_history (file : Option String) : HistoryAnalysis :=
  match file with
  | none => emptyAnalysis
  | some s =>
    if s.length = 0 then emptyAnalysis
    else
      let lines := splitLines s
      { packages := PACKAGE_PATTERNS.map (fun mp => (mp.1, find_matches lines mp.2)),
        services := find_matches lines SERVICE_PATTERNS,
        users := find_matches lines USER_PATTERNS }

/-- The consolidated analysis of one server: unioned collections plus the
per-user breakdown in iteration order. -/
structure ServerAnalysis where
  packages : List (String × List String)
  services : List String
  users_created : List String
  by_user : List (String × HistoryAnalysis)
  deriving Repr

/-- One step of the packages-consolidation loop (parser.py 145-148): create
the manager's entry when absent (appended, as dict insertion does), then
extend it with the user's packages (order inside an entry is immaterial,
the sets are sorted at the end). -/
def updPkgs : List (String × List String) → String → List String → List (String × List String)
  | [], m, ps => [(m, ps)]
  | (k, v) :: rest, m, ps =>
    if k = m then (k, v ++ ps) :: rest else (k, v) :: updPkgs rest m ps

/-- Fold a user's whole packages dict into the accumulator. -/
def consolidatePkgs (acc : List (String × List String)) (ups : List (String × List String)) :
    List (String × List String) :=
  ups.foldl (fun a mp => updPkgs a mp.1 mp.2) acc

/-- The body of the per-user loop of `analyze_server_history` (parser.py
134-154), applied to one (user, analysis) pair. -/
def consolidateUser (acc : ServerAnalysis) (p : String × HistoryAnalysis) : ServerAnalysis :=
  { packages := consolidatePkgs acc.packages p.2.packages,
    services := acc.services ++ p.2.services,
    users_created := acc.users_created ++ p.2.users,
    by_user := acc.by_user ++ [p] }

/-- The consolidation of `analyze_server_history` (parser.py 126-163) over
the per-user parse results: the directory walk of lines 134-139 supplies
the (user, analysis) pairs, each user appearing once.  After the loop every
consolidated set is turned into a sorted list (lines 156-161). -/
def analyze_server_history (inputs : List (String × HistoryAnalysis)) : ServerAnalysis :=
  let a := inputs.foldl consolidateUser ⟨[], [], [], []⟩
  { packages := a.packages.map (fun mp => (mp.1, pySortedSet mp.2)),
    services := pySortedSet a.services,
    users_created := pySortedSet a.users_created,
    by_user := a.by_user }

/-- Membership of a package under a manager key somewhere in a packages
dict: the view the consolidated union is stated in. -/
def PkgMem (l : List (String × List String)) (m x : String) : Prop :=
  ∃ v, (m, v) ∈ l ∧ x ∈ v

end VpsIbr.Parser

namespace VpsIbr.Collector

open VpsIbr

/-! ## Embedding of src/vps_ibr/inventory/collector.py (get_users) -/

/-- A discovered account: username and home directory. -/
structure UserEntry where
  username : String
  home : String
  deriving Repr, DecidableEq

/-- The account lines parsed from the enumeration command's output
(collector.py 104-109): per line, strip, split on `:`, keep lines with at
least two fields.  `None` and `""` outputs (failed command, no accounts)
parse to nothing. -/
def enumerated_users (output : Option String) : List UserEntry :=
  match output with
  | none => []
  | some out =>
    if out = "" then []
    else
      (splitLines out).filterMap (fun line =>
        match splitCharOn ':' (pyStripL line.toList) with
        | p0 :: p1 :: _ => some ⟨String.mk p0, String.mk p1⟩
        | _ => none)

/-- `get_users` (collector.py 90-114) as a function of the remote
enumeration command's output: parse the reported accounts, then always
append the administrative account. -/
def get_users (output : Option String) : List UserEntry :=
  enumerated_users output ++ [⟨"root", "/root"⟩]

end VpsIbr.Collector

namespace VpsIbr.Backup

open VpsIbr

/-! ## Embedding of src/vps_ibr/backup/manager.py -/

/-- A backup recipe: `SERVICE_BACKUP_HANDLERS` entry. -/
structure BackupHandler where
  paths : List String
  commands : List String
  files : List String

/-- The mysql backup recipe (backup/manager.py 24-28): config path, a dump
command, and the generated dump file to retrieve and delete. -/
def mysqlBackupHandler : BackupHandler :=
  { paths := ["/etc/mysql/"],
    commands := ["mysqldump --all-databases > /tmp/all_databases.sql"],
    files := ["/tmp/all_databases.sql"] }

/-- The postgresql backup recipe (lines 29-33). -/
def postgresqlBackupHandler : BackupHandler :=
  { paths := ["/etc/postgresql/"],
    commands := ["pg_dumpall -U postgres > /tmp/pg_dumpall.sql"],
    files := ["/tmp/pg_dumpall.sql"] }

/-- The static service-to-backup-recipe table (backup/manager.py 15-42). -/
def SERVICE_BACKUP_HANDLERS : List (String × BackupHandler) :=
  [("nginx", { paths := ["/etc/nginx/", "/var/www/"], commands := ["nginx -T"], files := [] }),
   ("apache2", { paths := ["/etc/apache2/", "/var/www/"], commands := ["apache2ctl -S"], files := [] }),
   ("mysql", mysqlBackupHandler),
   ("postgresql", postgresqlBackupHandler),
   ("docker", { paths := ["/var/lib/docker/volumes/", "/etc/docker/"],
                commands := ["docker ps", "docker volume ls"], files := [] }),
   ("nodejs", { paths := ["/etc/nodejs/", "/var/www/"], commands := [], files := [] })]

/-- `cmd.split()[0]`: the command word naming its output capture file. -/
def cmdHead (cmd : String) : String :=
  String.mk (cmd.toList.takeWhile (fun c => !(pyWs c)))

/-- `backup_service` (backup/manager.py 165-217) as its effect trace,
local paths relative to the server's backup directory.  Per configured
path: create the local directory (the sources' `dirname` of the
trailing-slash path is the full path) and pull the remote tree into it.
Per introspection command: run it, and capture its output to
`<word>_output.txt` when truthy.  Per standalone file: ensure the local
`files/` directory, then run `scp <file> root@localhost:/tmp/` on the
remote host and remove the remote file — no effect writes the computed
local file `files/<basename>`. -/
def backup_service (env : Env) (service : String) (h : BackupHandler) : List Effect :=
  [Effect.ensureDir ["services", service]] ++
  (h.paths.flatMap (fun p =>
    [Effect.ensureDir (["services", service, "files"] ++ splitPath p),
     Effect.pullTo (["services", service, "files"] ++ splitPath p) p
       (env.pullOk (["services", service, "files"] ++ splitPath p))])) ++
  (h.commands.flatMap (fun cmd =>
    [Effect.sshCmd cmd] ++
    (if truthy (env.ssh cmd) then
      [Effect.writeLocal ["services", service, cmdHead cmd ++ "_output.txt"]]
     else []))) ++
  (h.files.flatMap (fun fp =>
    [Effect.ensureDir ["services", service, "files"],
     Effect.sshCmd ("scp " ++ fp ++ " root@localhost:/tmp/"),
     Effect.sshCmd ("rm " ++ fp)]))

/-- Whether an effect can create or change the content of the local file at
`p`: a local write there, or a successful pull whose destination subtree
contains `p`.  Remote commands, pushes and directory creation cannot. -/
def canWriteFile (e : Effect) (p : FPath) : Bool :=
  match e with
  | .writeLocal q => q == p
  | .pullTo dst _ ok => ok && dst.isPrefixOf p
  | _ => false

/-- The summary record `create_backup_summary` writes (backup/manager.py
324-369); the wall-clock `backup_date` is not modelled. -/
structure BackupSummary where
  services : List String
  users : List String
  backup_size : Nat
  deriving Repr

/-- Total size of the files in a tree, `get_dir_size` (lines 371-387). -/
def get_dir_size : FTree → Nat
  | .file c => c.utf8ByteSize
  | .dir cs => sizeList cs
where
  sizeList : List (String × FTree) → Nat
    | [] => 0
    | e :: rest => get_dir_size e.2 + sizeList rest

/-- The subdirectory names the summary derives by listing (lines 338-348):
`os.listdir` filtered by `os.path.isdir`, `[]` for a missing directory. -/
def listedSubdirs (d : FTree) (p : FPath) : List String :=
  match d.childrenAt p with
  | some cs => (cs.filter (fun e => e.2.isDir)).map (fun e => e.1)
  | none => []

/-- `create_backup_summary` (backup/manager.py 324-354) over the server
directory's tree as it stands at the end of the run: the services and
users lists come from listing `services/` and `homes/`, not from replaying
which steps were attempted. -/
def create_backup_summary (d : FTree) : BackupSummary :=
  { services := listedSubdirs d ["services"],
    users := listedSubdirs d ["homes"],
    backup_size := get_dir_size d }

end VpsIbr.Backup

namespace VpsIbr.Restore

open VpsIbr

/-! ## Concrete fixtures -/

/-- A backup directory holding exactly
`services/nginx/files/etc/nginx/nginx.conf` with content `c`. -/
def nginxBackup (c : String) : FTree :=
  .dir [("services", .dir [("nginx", .dir [("files",
    .dir [("etc", .dir [("nginx", .dir [("nginx.conf", .file c)])])])])])]

/-- A backup directory holding exactly
`services/mysql/files/all_databases.sql`. -/
def mysqlDumpBackup : FTree :=
  .dir [("services", .dir [("mysql", .dir [("files",
    .dir [("all_databases.sql", .file "dump")])])])]

/-- An environment whose every remote command succeeds with output `"ok"`
and whose every tree sync succeeds. -/
def envOk : Env := ⟨fun _ => some "ok", fun _ => true, fun _ => true⟩

/-- An environment whose every remote operation fails. -/
def envDown : Env := ⟨fun _ => none, fun _ => false, fun _ => false⟩

/-- The mysql service subdirectory of `mysqlDumpBackup`. -/
def sdirMysql : FTree := .dir [("files", .dir [("all_databases.sql", .file "dump")])]

end VpsIbr.Restore

namespace VpsIbr.Backup

open VpsIbr

/-- C5 (recorded divergence): over every environment, the standalone-file
step of `backup_service` for mysql never produces an effect able to write
the local dump copy `services/mysql/files/all_databases.sql` — no effect of
the whole trace can — yet it does issue the remote `rm` that deletes the
generated dump, so the dump's content is not retrieved before deletion. -/
theorem backup_service_mysql_dump_not_retrieved (env : Env) :
    ((backup_service env "mysql" mysqlBackupHandler).all
      (fun e => !(canWriteFile e ["services", "mysql", "files", "all_databases.sql"]))) = true ∧
    Effect.sshCmd "rm /tmp/all_databases.sql" ∈ backup_service env "mysql" mysqlBackupHandler := by
  constructor
  · cases htr : truthy (env.ssh "mysqldump --all-databases > /tmp/all_databases.sql") <;>
    cases hpl : env.pullOk ["services", "mysql", "files", "etc", "mysql"] <;>
      simp [backup_service, mysqlBackupHandler, canWriteFile, cmdHead, splitPath,
            splitCharOn, htr, hpl] <;> decide
  · unfold backup_service
    exact List.mem_append.mpr (Or.inr (List.Mem.tail _ (List.Mem.tail _ (List.Mem.head _))))

/-- C6: the summary's `services` list is, as a set, exactly the
subdirectories present under `services/` and its `users` list exactly those
under `homes/`, with a missing directory yielding the empty list; the
summary is a function of the on-disk tree alone, independent of which steps
were attempted. -/
theorem create_backup_summary_lists (d : FTree) (s u : String) :
    (s ∈ (create_backup_summary d).services ↔
      ∃ e ∈ (d.childrenAt ["services"]).getD [], e.1 = s ∧ e.2.isDir = true) ∧
    (u ∈ (create_backup_summary d).users ↔
      ∃ e ∈ (d.childrenAt ["homes"]).getD [], e.1 = u ∧ e.2.isDir = true) ∧
    (d.childrenAt ["services"] = none → (create_backup_summary d).services = []) ∧
    (d.childrenAt ["homes"] = none → (create_backup_summary d).users = []) := by
  refine ⟨?_, ?_, ?_, ?_⟩
  · unfold create_backup_summary listedSubdirs
    cases h : d.childrenAt ["services"] with
    | none => simp
    | some cs =>
      simp only [Option.getD_some, List.mem_map, List.mem_filter]
      constructor
      · rintro ⟨e, ⟨hm, hd⟩, he⟩
        exact ⟨e, hm, he, hd⟩
      · rintro ⟨e, hm, he, hd⟩
        exact ⟨e, ⟨hm, hd⟩, he⟩
  · unfold create_backup_summary listedSubdirs
    cases h : d.childrenAt ["homes"] with
    | none => simp
    | some cs =>
      simp only [Option.getD_some, List.mem_map, List.mem_filter]
      constructor
      · rintro ⟨e, ⟨hm, hd⟩, he⟩
        exact ⟨e, hm, he, hd⟩
      · rintro ⟨e, hm, he, hd⟩
        exact ⟨e, ⟨hm, hd⟩, he⟩
  · intro h
    simp [create_backup_summary, listedSubdirs, h]
  · intro h
    simp [create_backup_summary, listedSubdirs, h]

end VpsIbr.Backup

namespace VpsIbr.Collector

open VpsIbr

/-- C7 counterexample: on enumeration output that itself reports a `root`
line, `get_users` does not contain the administrative account exactly once
(it appears twice), refuting the claim for arbitrary enumeration output. -/
theorem get_users_root_duplicated :
    ¬ ((get_users (some "root:/root")).countP (fun u => u.username == "root") = 1) := by
  decide

/-- C7 as amended: for every enumeration output, `get_users` appends the
administrative account `root` with home `/root` after all remotely
discovered accounts; whenever the remote output does not itself name
`root`, the account appears exactly once. -/
theorem get_users_root_appended (output : Option String) :
    get_users output = enumerated_users output ++ [⟨"root", "/root"⟩] ∧
    ((∀ u ∈ enumerated_users output, u.username ≠ "root") →
      (get_users output).countP (fun u => u.username == "root") = 1) := by
  refine ⟨rfl, fun h => ?_⟩
  unfold get_users
  rw [List.countP_append]
  have h0 : (enumerated_users output).countP (fun u => u.username == "root") = 0 := by
    rw [List.countP_eq_zero]
    intro u hu
    simp [h u hu]
  rw [h0]
  rfl

end VpsIbr.Collector

namespace VpsIbr.Parser

open VpsIbr

/-- C8: the pattern extraction yields `nginx` in the apt category for the
history line `sudo apt-get install -y nginx`, and `deploy` in the
users-created category for `useradd -m deploy`. -/
theorem find_matches_examples :
    "nginx" ∈ find_matches ["sudo apt-get install -y nginx"] aptPatterns ∧
    "deploy" ∈ find_matches ["useradd -m deploy"] USER_PATTERNS := by
  decide

/-- C9: a missing history file, or one of length zero, parses to the
analysis whose packages, services and users collections are all empty; no
error is raised (the embedding is a total function). -/
theorem parse_bash_history_missing_or_empty (f : Option String)
    (h : f = none ∨ f = some "") :
    parse_bash_history f = emptyAnalysis := by
  rcases h with rfl | rfl <;> rfl

/-- Witness for `parse_bash_history_missing_or_empty` at the missing file. -/
theorem parse_bash_history_missing_or_empty_witness :
    parse_bash_history none = emptyAnalysis :=
  parse_bash_history_missing_or_empty none (Or.inl rfl)

/-! ## Aggregation lemmas (C10) -/

theorem mem_pySortedSet {x : String} {l : List String} : x ∈ pySortedSet l ↔ x ∈ l := by
  unfold pySortedSet
  rw [List.mem_insertionSort]
  exact List.mem_dedup

theorem pairwise_pySortedSet (l : List String) :
    (pySortedSet l).Pairwise (fun a b => pyLe a b ∧ a ≠ b) := by
  have hs : (pySortedSet l).Sorted pyLe := List.sorted_insertionSort pyLe l.dedup
  have hn : (pySortedSet l).Nodup :=
    (List.perm_insertionSort pyLe l.dedup).nodup_iff.mpr l.nodup_dedup
  exact List.Pairwise.and hs hn

theorem foldl_consolidateUser_services (inputs : List (String × HistoryAnalysis))
    (a : ServerAnalysis) :
    (inputs.foldl consolidateUser a).services
      = a.services ++ inputs.flatMap (fun p => p.2.services) := by
  induction inputs generalizing a with
  | nil => simp
  | cons p rest ih => simp [consolidateUser, ih]

theorem foldl_consolidateUser_users (inputs : List (String × HistoryAnalysis))
    (a : ServerAnalysis) :
    (inputs.foldl consolidateUser a).users_created
      = a.users_created ++ inputs.flatMap (fun p => p.2.users) := by
  induction inputs generalizing a with
  | nil => simp
  | cons p rest ih => simp [consolidateUser, ih]

theorem foldl_consolidateUser_by_user (inputs : List (String × HistoryAnalysis))
    (a : ServerAnalysis) :
    (inputs.foldl consolidateUser a).by_user = a.by_user ++ inputs := by
  induction inputs generalizing a with
  | nil => simp
  | cons p rest ih => simp [consolidateUser, ih]

theorem foldl_consolidateUser_packages (inputs : List (String × HistoryAnalysis))
    (a : ServerAnalysis) :
    (inputs.foldl consolidateUser a).packages
      = inputs.foldl (fun acc p => consolidatePkgs acc p.2.packages) a.packages := by
  induction inputs generalizing a with
  | nil => rfl
  | cons p rest ih => simp [consolidateUser, ih]

theorem pkgMem_nil (m x : String) : ¬ PkgMem [] m x := by
  rintro ⟨v, hv, _⟩
  simp at hv

theorem pkgMem_cons {k : String} {v : List String} {rest : List (String × List String)}
    {m x : String} :
    PkgMem ((k, v) :: rest) m x ↔ (m = k ∧ x ∈ v) ∨ PkgMem rest m x := by
  constructor
  · rintro ⟨w, hw, hx⟩
    rcases List.mem_cons.mp hw with h | h
    · obtain ⟨h1, h2⟩ := Prod.mk.injEq .. ▸ h
      exact Or.inl ⟨h1, h2 ▸ hx⟩
    · exact Or.inr ⟨w, h, hx⟩
  · rintro (⟨rfl, hx⟩ | ⟨w, hw, hx⟩)
    · exact ⟨v, List.mem_cons_self _ _, hx⟩
    · exact ⟨w, List.mem_cons_of_mem _ hw, hx⟩

theorem pkgMem_updPkgs (l : List (String × List String)) (mm : String) (ps : List String)
    (k x : String) :
    PkgMem (updPkgs l mm ps) k x ↔ PkgMem l k x ∨ (k = mm ∧ x ∈ ps) := by
  induction l with
  | nil =>
    simp only [updPkgs, pkgMem_cons]
    have := pkgMem_nil k x
    tauto
  | cons e rest ih =>
    obtain ⟨ek, ev⟩ := e
    by_cases hk : ek = mm
    · subst hk
      rw [show updPkgs ((ek, ev) :: rest) ek ps = (ek, ev ++ ps) :: rest from by
            simp [updPkgs]]
      rw [pkgMem_cons, pkgMem_cons]
      simp only [List.mem_append]
      tauto
    · rw [show updPkgs ((ek, ev) :: rest) mm ps = (ek, ev) :: updPkgs rest mm ps from by
            simp [updPkgs, hk]]
      rw [pkgMem_cons, pkgMem_cons, ih]
      tauto

theorem pkgMem_consolidatePkgs (acc ups : List (String × List String)) (k x : String) :
    PkgMem (consolidatePkgs acc ups) k x ↔ PkgMem acc k x ∨ PkgMem ups k x := by
  induction ups generalizing acc with
  | nil =>
    have := pkgMem_nil k x
    simp only [consolidatePkgs, List.foldl_nil]
    tauto
  | cons e rest ih =>
    obtain ⟨m, ps⟩ := e
    have hstep : consolidatePkgs acc ((m, ps) :: rest)
        = consolidatePkgs (updPkgs acc m ps) rest := rfl
    rw [hstep, ih, pkgMem_updPkgs, pkgMem_cons]
    tauto

theorem pkgMem_fold_inputs (inputs : List (String × HistoryAnalysis))
    (acc : List (String × List String)) (k x : String) :
    PkgMem (inputs.foldl (fun a p => consolidatePkgs a p.2.packages) acc) k x ↔
      PkgMem acc k x ∨ ∃ p ∈ inputs, PkgMem p.2.packages k x := by
  induction inputs generalizing acc with
  | nil => simp
  | cons p rest ih =>
    simp only [List.foldl_cons, ih, pkgMem_consolidatePkgs, List.mem_cons]
    constructor
    · rintro ((h | h) | ⟨q, hq, h⟩)
      · exact Or.inl h
      · exact Or.inr ⟨p, Or.inl rfl, h⟩
      · exact Or.inr ⟨q, Or.inr hq, h⟩
    · rintro (h | ⟨q, (rfl | hq), h⟩)
      · exact Or.inl (Or.inl h)
      · exact Or.inl (Or.inr h)
      · exact Or.inr ⟨q, hq, h⟩

theorem pkgMem_map_sort (l : List (String × List String)) (m x : String) :
    PkgMem (l.map (fun mp => (mp.1, pySortedSet mp.2))) m x ↔ PkgMem l m x := by
  constructor
  · rintro ⟨v, hv, hx⟩
    rcases List.mem_map.mp hv with ⟨mp, hmp, he⟩
    obtain ⟨h1, h2⟩ := Prod.mk.injEq .. ▸ he.symm
    refine ⟨mp.2, ?_, ?_⟩
    · rw [h1]
      simpa using hmp
    · exact mem_pySortedSet.mp (h2 ▸ hx)
  · rintro ⟨v, hv, hx⟩
    exact ⟨pySortedSet v, List.mem_map.mpr ⟨(m, v), hv, rfl⟩, mem_pySortedSet.mpr hx⟩

/-- C10: over every list of per-user analyses, the consolidation of
`analyze_server_history` returns the per-user breakdown verbatim, and each
consolidated collection — services, created users, and packages per
manager — equals, as a set, the union of that category across all inputs,
lexicographically sorted and duplicate-free. -/
theorem analyze_server_history_union (inputs : List (String × HistoryAnalysis)) :
    (analyze_server_history inputs).by_user = inputs ∧
    (∀ s, s ∈ (analyze_server_history inputs).services ↔
      ∃ p ∈ inputs, s ∈ p.2.services) ∧
    ((analyze_server_history inputs).services.Pairwise (fun a b => pyLe a b ∧ a ≠ b)) ∧
    (∀ u, u ∈ (analyze_server_history inputs).users_created ↔
      ∃ p ∈ inputs, u ∈ p.2.users) ∧
    ((analyze_server_history inputs).users_created.Pairwise (fun a b => pyLe a b ∧ a ≠ b)) ∧
    (∀ m x, PkgMem (analyze_server_history inputs).packages m x ↔
      ∃ p ∈ inputs, PkgMem p.2.packages m x) ∧
    (∀ m v, (m, v) ∈ (analyze_server_history inputs).packages →
      v.Pairwise (fun a b => pyLe a b ∧ a ≠ b)) := by
  refine ⟨?_, ?_, ?_, ?_, ?_, ?_, ?_⟩
  · show (inputs.foldl consolidateUser ⟨[], [], [], []⟩).by_user = inputs
    rw [foldl_consolidateUser_by_user]
    rfl
  · intro s
    show s ∈ pySortedSet (inputs.foldl consolidateUser ⟨[], [], [], []⟩).services ↔ _
    rw [mem_pySortedSet, foldl_consolidateUser_services]
    simp [List.mem_flatMap]
  · exact pairwise_pySortedSet _
  · intro u
    show u ∈ pySortedSet (inputs.foldl consolidateUser ⟨[], [], [], []⟩).users_created ↔ _
    rw [mem_pySortedSet, foldl_consolidateUser_users]
    simp [List.mem_flatMap]
  · exact pairwise_pySortedSet _
  · intro m x
    show PkgMem ((inputs.foldl consolidateUser ⟨[], [], [], []⟩).packages.map
      (fun mp => (mp.1, pySortedSet mp.2))) m x ↔ _
    rw [pkgMem_map_sort, foldl_consolidateUser_packages]
    have := pkgMem_nil m x
    rw [pkgMem_fold_inputs]
    tauto
  · intro m v hv
    rcases List.mem_map.mp hv with ⟨mp, _, he⟩
    obtain ⟨_, h2⟩ := Prod.mk.injEq .. ▸ he
    exact h2 ▸ pairwise_pySortedSet mp.2

end VpsIbr.Parser

namespace VpsIbr

/-! ## Trace lemmas -/

theorem applyTrace_append (fs : FPath → Option String) (a b : List Effect) :
    applyTrace fs (a ++ b) = applyTrace (applyTrace fs a) b := by
  induction a generalizing fs with
  | nil => rfl
  | cons e rest ih => simpa [applyTrace] using ih (applyEffect fs e)

theorem applyTrace_silent (l : List Effect) (fs : FPath → Option String)
    (h : l.all remoteSilent = true) : applyTrace fs l = fs := by
  induction l generalizing fs with
  | nil => rfl
  | cons e rest ih =>
    simp only [List.all_cons, Bool.and_eq_true] at h
    have he : applyEffect fs e = fs := by
      cases e with
      | push dst content ok => simp [remoteSilent] at h
      | _ => rfl
    rw [applyTrace, he, ih fs h.2]

end VpsIbr

namespace VpsIbr.Restore

open VpsIbr

theorem install_step_silent (env : Env) (s : String) :
    (install_step env s).all remoteSilent = true := by
  unfold install_step
  split_ifs <;> rfl

/-- C2: once any of the three preconditions fails — backup directory
missing, SSH key file missing, or the connectivity probe's output falsy —
`restore_server` returns `False` without raising, and its trace holds no
effect at all beyond possibly the probe command itself: no local write (in
particular no restore log) and no remote push has happened. -/
theorem restore_server_preconditions (w : World)
    (h : w.backupDir = none ∨ w.sshKeyExists = false ∨
         truthy (w.env.ssh probe_cmd) = false) :
    (restore_server w).2 = .ok false ∧
    ((restore_server w).1 = [] ∨ (restore_server w).1 = [Effect.sshCmd probe_cmd]) := by
  rcases h with h | h | h
  · simp [restore_server, h]
  · rcases hbd : w.backupDir with _ | bt
    · simp [restore_server, hbd]
    · simp [restore_server, hbd, h]
  · rcases hbd : w.backupDir with _ | bt
    · simp [restore_server, hbd]
    · cases hk : w.sshKeyExists with
      | false => simp [restore_server, hbd, hk]
      | true => simp [restore_server, hbd, hk, h]

/-- Witness for `restore_server_preconditions` at a concrete world whose
backup directory is missing. -/
theorem restore_server_preconditions_witness :
    (restore_server ⟨none, true, envOk⟩).2 = .ok false ∧
    ((restore_server ⟨none, true, envOk⟩).1 = [] ∨
     (restore_server ⟨none, true, envOk⟩).1 = [Effect.sshCmd probe_cmd]) :=
  restore_server_preconditions ⟨none, true, envOk⟩ (Or.inl rfl)

/-- C3 (recorded divergence): on a backup directory containing
`services/mysql/files/all_databases.sql`, with all three preconditions
passing, `restore_server` does not return `True` with the step failure
logged — the unbound name `subprocess` escapes as a `NameError` and aborts
the run. -/
theorem restore_server_mysql_dump_raises :
    (restore_server ⟨some mysqlDumpBackup, true, envOk⟩).2
      = .error (.nameError "subprocess") := by rfl

theorem copy_files_step_error (env : Env) (sdir : FTree) :
    ∀ l : List (String × String),
      (∃ fd ∈ l, (sdir.find? (splitPath fd.1)).isSome = true) →
      (copy_files_step env sdir l).2 = .error (.nameError "subprocess")
  | [], h => by simp at h
  | (src, dst) :: rest, h => by
    cases hsrc : (sdir.find? (splitPath src)).isSome with
    | false =>
      have hrest : ∃ fd ∈ rest, (sdir.find? (splitPath fd.1)).isSome = true := by
        rcases h with ⟨fd, hm, hp⟩
        rcases List.mem_cons.mp hm with rfl | hm'
        · exact absurd hp (by simp [hsrc])
        · exact ⟨fd, hm', hp⟩
      simpa [copy_files_step, hsrc] using copy_files_step_error env sdir rest hrest
    | true =>
      simp [copy_files_step, hsrc,
        (by decide : ¬ ("subprocess" ∈ restore_manager_imports))]

theorem restore_service_result (env : Env) (service : String) (sdir : FTree) :
    (restore_service env service sdir).2 =
      match (copy_files_step env sdir
        (((SERVICE_RESTORE_HANDLERS.lookup service).bind (fun hh => hh.files)).getD [])).2 with
      | .error e => .error e
      | .ok _ => .ok true := by
  unfold restore_service
  cases hc : copy_files_step env sdir
      (((SERVICE_RESTORE_HANDLERS.lookup service).bind (fun hh => hh.files)).getD []) with
  | mk t2 r => cases r <;> simp [hc]

/-- C4: whenever a service's restore recipe lists standalone files (the
mysql and postgresql recipes) and the backup holds such a source file, the
file-copy step of `restore_service` evaluates `subprocess`, a name the
module never imports, so the call ends in a `NameError` instead of
completing or logging a failure; a recipe with no `files` entry never
reaches that branch and `restore_service` returns `True`. -/
theorem restore_service_subprocess_name_error (env : Env) (service : String)
    (h : RestoreHandler) (sdir : FTree)
    (hl : SERVICE_RESTORE_HANDLERS.lookup service = some h) :
    ((∃ fd ∈ h.files.getD [], (sdir.find? (splitPath fd.1)).isSome = true) →
      (restore_service env service sdir).2 = .error (.nameError "subprocess")) ∧
    (h.files = none → (restore_service env service sdir).2 = .ok true) := by
  constructor
  · intro hex
    have herr := copy_files_step_error env sdir (h.files.getD []) hex
    rw [restore_service_result, hl]
    simp only [Option.bind]
    rw [herr]
  · intro hf
    rw [restore_service_result, hl]
    simp [hf, copy_files_step]

theorem restore_server_nginx_eq (c : String) (env : Env)
    (hp : truthy (env.ssh probe_cmd) = true) :
    restore_server ⟨some (nginxBackup c), true, env⟩ =
      ([Effect.sshCmd probe_cmd, logW, logW, logW, logW,
        Effect.push ["etc", "nginx"] (FTree.dir [("nginx.conf", FTree.file c)])
          (env.pushOk ["etc", "nginx"])]
        ++ install_step env "nginx"
        ++ [logW, Effect.sshCmd "systemctl restart nginx", logW], .ok true) := by
  simp [restore_server, restore_system_configs, restore_paths_step, copy_files_step,
        services_loop, homes_loop, restore_service, post_step, nginxBackup,
        SERVICE_RESTORE_HANDLERS, nginxRestoreHandler, FTree.find?, FTree.childrenAt,
        FTree.isDir, List.lookup, splitPath, splitCharOn, hp]

/-- C1: restoring the backup directory that holds
`services/nginx/files/etc/nginx/nginx.conf` onto a reachable fresh target
(probe truthy, pushes delivered) succeeds, the pushed subtree makes the file
appear at `/etc/nginx/nginx.conf` on the target with the backed-up content,
and after the optional package-installation step the command
`systemctl restart nginx` is issued — the nginx recipe defines
`restart_cmd` and no `post_restore_cmd`. -/
theorem restore_server_nginx_roundtrip (c : String) (env : Env)
    (hp : truthy (env.ssh probe_cmd) = true)
    (hok : env.pushOk ["etc", "nginx"] = true) :
    (restore_server ⟨some (nginxBackup c), true, env⟩).2 = .ok true ∧
    applyTrace (fun _ => none) (restore_server ⟨some (nginxBackup c), true, env⟩).1
      ["etc", "nginx", "nginx.conf"] = some c ∧
    ∃ pre post,
      (restore_server ⟨some (nginxBackup c), true, env⟩).1
        = pre ++ Effect.push ["etc", "nginx"] (FTree.dir [("nginx.conf", FTree.file c)]) true :: post ∧
      Effect.sshCmd "systemctl restart nginx" ∈ post := by
  have heq := restore_server_nginx_eq c env hp
  rw [hok] at heq
  refine ⟨by rw [heq], ?_, ?_⟩
  · rw [heq]
    rw [applyTrace_append, applyTrace_append,
        applyTrace_silent _ _ (install_step_silent env "nginx")]
    rfl
  · refine ⟨[Effect.sshCmd probe_cmd, logW, logW, logW, logW],
      install_step env "nginx" ++ [logW, Effect.sshCmd "systemctl restart nginx", logW],
      ?_, ?_⟩
    · rw [heq]
      simp
    · exact List.mem_append.mpr (Or.inr (by simp))

/-- Witness for `restore_server_nginx_roundtrip` at a concrete content and
an all-succeeding environment. -/
theorem restore_server_nginx_roundtrip_witness :
    (restore_server ⟨some (nginxBackup "conf"), true, envOk⟩).2 = .ok true ∧
    applyTrace (fun _ => none) (restore_server ⟨some (nginxBackup "conf"), true, envOk⟩).1
      ["etc", "nginx", "nginx.conf"] = some "conf" ∧
    ∃ pre post,
      (restore_server ⟨some (nginxBackup "conf"), true, envOk⟩).1
        = pre ++ Effect.push ["etc", "nginx"]
            (FTree.dir [("nginx.conf", FTree.file "conf")]) true :: post ∧
      Effect.sshCmd "systemctl restart nginx" ∈ post :=
  restore_server_nginx_roundtrip "conf" envOk rfl rfl

/-- Witness for `restore_service_subprocess_name_error`: the mysql recipe
with its dump present raises, the nginx recipe (no `files`) succeeds. -/
theorem restore_service_subprocess_name_error_witness :
    (restore_service envDown "mysql" sdirMysql).2 = .error (.nameError "subprocess") ∧
    (restore_service envDown "nginx" (FTree.dir [])).2 = .ok true :=
  ⟨(restore_service_subprocess_name_error envDown "mysql" mysqlRestoreHandler sdirMysql rfl).1
      ⟨("files/all_databases.sql", "/tmp/all_databases.sql"),
       List.mem_singleton.mpr rfl, rfl⟩,
   (restore_service_subprocess_name_error envDown "nginx" nginxRestoreHandler
      (FTree.dir []) rfl).2 rfl⟩

end VpsIbr.Restore

